import Mathlib

/-!
# defold-miniaudio: the playback-instance lifecycle manager

A shallow embedding of `miniaudio/src/miniaudio.cpp`.

* The three globals `g_basePath`, `g_preloadedSounds` and `g_playingSounds` form the
  `State` record; every Lua entry point is a function from the old state (and its
  already checked arguments) to its Lua result and the new state.
* `std::string` is `String`, `std::vector<PlayingSound*>` is `List PlayingSound`, and
  `std::map<std::string, ma_sound>` is a key-unique association list (`AList`); the
  iteration order of the map is never observed by the operations embedded here.
* The miniaudio engine and the C file API are external: their answers are the fields of
  `Env`. The contents of a `ma_sound` object is an uninterpreted value, and the volume
  and pitch of a play request are handed to the engine as they come.
* A `float` that the code compares is a `CFloat`, its value as IEEE 754 comparison sees
  it; the conversion of a Lua number to `float` is rounding and happens before the
  embedded code.
* `g_mutex` serialises the entry points, so each one is embedded as one atomic step.
  Log output is not part of the state.
* The `int` loop indices and counters are unbounded numbers: a registry entry owns a
  heap-allocated `ma_sound`, which keeps the vector's size far below `2^31`.
* Reading `g_playingSounds[i]` outside the vector is undefined behaviour; the loops that
  index the vector return `none` there, and the theorems show that this never happens.
-/

namespace Miniaudio

/-- The contents of one engine-side `ma_sound` object (uninterpreted). -/
structure ma_sound where
  raw : Nat
deriving DecidableEq, Repr

instance : Inhabited ma_sound := ⟨⟨0⟩⟩

/-- The struct `PlayingSound`: one in-flight playback. -/
structure PlayingSound where
  sound : ma_sound
  name : String
  preloaded_instance : Bool
deriving DecidableEq, Repr

/-- The mutable globals of the extension. -/
structure State where
  g_basePath : String
  g_preloadedSounds : AList (fun _ : String => ma_sound)
  g_playingSounds : List PlayingSound

/-- The external collaborators as seen during one call: the C file API and the miniaudio
engine. `fopen p = true` means `fopen(p, "rb")` returned a non-null handle. The second
`fopen` of an already resolved path (the re-open check of preload and play) is a later
system call and may answer differently, hence `fopen_recheck`. An engine call that
initialises or starts a sound returns `none` when its `ma_result` is not `MA_SUCCESS`
and the new contents of the sound object otherwise. -/
structure Env where
  fopen : String → Bool
  fopen_recheck : String → Bool
  ma_sound_init_ex : String → Option ma_sound
  ma_sound_init_copy : ma_sound → Option ma_sound
  ma_sound_init_from_file : String → Option ma_sound
  ma_sound_set_looping : ma_sound → Bool → ma_sound
  ma_sound_set_volume : ma_sound → Float → ma_sound
  ma_sound_set_pitch : ma_sound → Float → ma_sound
  ma_sound_start : ma_sound → Option ma_sound
  ma_sound_is_playing : ma_sound → Bool
  ma_sound_at_end : ma_sound → Bool
  ma_sound_is_looping : ma_sound → Bool

/-- The last character of a non-empty string (`std::string::back`), `none` when empty. -/
def back (s : String) : Option Char := s.data.getLast?

/-- A string ends with a path separator, `/` or `\`. -/
def EndsWithSeparator (s : String) : Prop :=
  back s = some '/' ∨ back s = some '\\'

instance (s : String) : Decidable (EndsWithSeparator s) := by
  unfold EndsWithSeparator; infer_instance

/-- Embeds `FindSoundFile`: probes `<basePath><name>.wav`, then `<basePath><name>.mp3`;
returns the first path that opens, or the empty string. -/
def FindSoundFile (env : Env) (s : State) (soundName : String) : String :=
  let pathWav := s.g_basePath ++ soundName ++ ".wav"
  let pathMp3 := s.g_basePath ++ soundName ++ ".mp3"
  if env.fopen pathWav then pathWav
  else if env.fopen pathMp3 then pathMp3
  else ""

/-- Embeds `Miniaudio_SetBasePath`: stores the path and appends `/` when the stored path
is non-empty and does not already end in `/` or `\`. -/
def Miniaudio_SetBasePath (s : State) (path : String) : State :=
  let g_basePath := path
  if g_basePath ≠ "" ∧ back g_basePath ≠ some '/' ∧ back g_basePath ≠ some '\\' then
    { s with g_basePath := g_basePath ++ "/" }
  else
    { s with g_basePath := g_basePath }

/-- Embeds `CleanupAllPlayingSounds`: stops and releases every playing sound on the
engine side, then clears the vector. -/
def CleanupAllPlayingSounds (s : State) : State :=
  { s with g_playingSounds := [] }

/-- Embeds `Miniaudio_Preload`. The result is the pushed boolean and the new state.
`g_preloadedSounds[nameStr]` reserves a value-initialised slot, `ma_sound_init_ex` fills
it, and a failed init erases the slot again. -/
def Miniaudio_Preload (env : Env) (s : State) (nameStr : String) : Bool × State :=
  if nameStr ∈ s.g_preloadedSounds then (true, s)
  else
    let filePath := FindSoundFile env s nameStr
    if filePath = "" then (false, s)
    else if env.fopen_recheck filePath = false then (false, s)
    else
      let reserved := s.g_preloadedSounds.insert nameStr default
      match env.ma_sound_init_ex filePath with
      | none => (false, { s with g_preloadedSounds := reserved.erase nameStr })
      | some sound => (true, { s with g_preloadedSounds := reserved.replace nameStr sound })

/-- The common tail of `Miniaudio_Play`, reached with an initialised sound: applies
looping, volume and pitch, starts the sound and appends it to `g_playingSounds`; a
failed start releases the sound and registers nothing. -/
def Miniaudio_Play_start (env : Env) (s : State) (playingSound : PlayingSound)
    (looping : Bool) (volume pitch : Float) : Bool × State :=
  let sound₁ := env.ma_sound_set_looping playingSound.sound looping
  let sound₂ := env.ma_sound_set_volume sound₁ volume
  let sound₃ := env.ma_sound_set_pitch sound₂ pitch
  match env.ma_sound_start sound₃ with
  | none => (false, s)
  | some sound₄ =>
    (true, { s with g_playingSounds := s.g_playingSounds ++ [{ playingSound with sound := sound₄ }] })

/-- Embeds `Miniaudio_Play`. The result is the pushed boolean and the new state. A
preloaded sound is copied from its asset; any other sound is resolved with
`FindSoundFile`, re-opened and decoded from the file. -/
def Miniaudio_Play (env : Env) (s : State) (nameStr : String)
    (looping : Bool) (volume pitch : Float) : Bool × State :=
  match s.g_preloadedSounds.lookup nameStr with
  | some preloaded =>
    match env.ma_sound_init_copy preloaded with
    | none => (false, s)
    | some sound =>
      Miniaudio_Play_start env s ⟨sound, nameStr, true⟩ looping volume pitch
  | none =>
    let filePath := FindSoundFile env s nameStr
    if filePath = "" then (false, s)
    else if env.fopen_recheck filePath = false then (false, s)
    else
      match env.ma_sound_init_from_file filePath with
      | none => (false, s)
      | some sound =>
        Miniaudio_Play_start env s ⟨sound, nameStr, false⟩ looping volume pitch

/-- The loop of `Miniaudio_Stop`, `for (int i = size - 1; i >= 0; --i)`, entered with
`i = k - 1` (so `k = 0` is the exit `i < 0`): an element named `nameStr` is erased at its
index and counted. -/
def stopLoop (nameStr : String) :
    Nat → List PlayingSound → Nat → Option (List PlayingSound × Nat)
  | 0, playing, stopped => some (playing, stopped)
  | i + 1, playing, stopped =>
    match playing[i]? with
    | none => none
    | some p =>
      if p.name = nameStr then stopLoop nameStr i (playing.eraseIdx i) (stopped + 1)
      else stopLoop nameStr i playing stopped

/-- Embeds `Miniaudio_Stop`. The result is the pushed count and the new state. -/
def Miniaudio_Stop (s : State) (nameStr : String) : Option (Nat × State) :=
  match stopLoop nameStr s.g_playingSounds.length s.g_playingSounds 0 with
  | none => none
  | some (playing, stopped) => some (stopped, { s with g_playingSounds := playing })

/-- Embeds `Miniaudio_StopAll`: remembers the size, then runs `CleanupAllPlayingSounds`. -/
def Miniaudio_StopAll (s : State) : Nat × State :=
  let count := s.g_playingSounds.length
  (count, CleanupAllPlayingSounds s)

/-- The loop of `Miniaudio_IsPlaying` over the vector, leaving at the first instance
of that name that the engine reports as playing. -/
def isPlayingLoop (env : Env) (nameStr : String) : List PlayingSound → Bool
  | [] => false
  | playing :: rest =>
    if playing.name = nameStr then
      if env.ma_sound_is_playing playing.sound then true
      else isPlayingLoop env nameStr rest
    else isPlayingLoop env nameStr rest

/-- Embeds `Miniaudio_IsPlaying`: a live query of the engine, the state is only read. -/
def Miniaudio_IsPlaying (env : Env) (s : State) (nameStr : String) : Bool :=
  isPlayingLoop env nameStr s.g_playingSounds

/-- Embeds `Miniaudio_Unload`. The result is the pushed boolean and the new state. -/
def Miniaudio_Unload (s : State) (nameStr : String) : Bool × State :=
  match s.g_preloadedSounds.lookup nameStr with
  | some _ => (true, { s with g_preloadedSounds := s.g_preloadedSounds.erase nameStr })
  | none => (false, s)

/-- The loop of `UpdateMiniaudio`, `for (int i = size - 1; i >= 0; --i)`, entered with
`i = k - 1`: an element that is at its end and not looping is released and erased at
its index. -/
def updateLoop (env : Env) : Nat → List PlayingSound → Option (List PlayingSound)
  | 0, playing => some playing
  | i + 1, playing =>
    match playing[i]? with
    | none => none
    | some p =>
      if env.ma_sound_at_end p.sound && !env.ma_sound_is_looping p.sound then
        updateLoop env i (playing.eraseIdx i)
      else updateLoop env i playing

/-- Embeds `UpdateMiniaudio`: the per-frame sweep. -/
def UpdateMiniaudio (env : Env) (s : State) : Option State :=
  match updateLoop env s.g_playingSounds.length s.g_playingSounds with
  | none => none
  | some playing => some { s with g_playingSounds := playing }

/-- A run of frames: one `UpdateMiniaudio` per engine snapshot, in order, with no other
call in between. -/
def runFrames : List Env → State → Option State
  | [], s => some s
  | env :: envs, s =>
    match UpdateMiniaudio env s with
    | none => none
    | some s₁ => runFrames envs s₁

/-- The state right after `InitializeMiniaudio`: empty base path, nothing preloaded,
nothing playing. -/
def initialState : State := ⟨"", ∅, []⟩

/-- A concrete collaborator snapshot: exactly the paths in `files` can be opened, the
engine accepts every request, a sound whose contents is odd is at its end, and a sound
whose contents is at least ten is looping. -/
def demoEnv (files : List String) : Env where
  fopen := fun p => decide (p ∈ files)
  fopen_recheck := fun p => decide (p ∈ files)
  ma_sound_init_ex := fun _ => some ⟨1⟩
  ma_sound_init_copy := fun sound => some ⟨sound.raw + 2⟩
  ma_sound_init_from_file := fun _ => some ⟨5⟩
  ma_sound_set_looping := fun sound _ => sound
  ma_sound_set_volume := fun sound _ => sound
  ma_sound_set_pitch := fun sound _ => sound
  ma_sound_start := fun sound => some sound
  ma_sound_is_playing := fun _ => true
  ma_sound_at_end := fun sound => decide (sound.raw % 2 = 1)
  ma_sound_is_looping := fun sound => decide (10 ≤ sound.raw)

/-- A state with base path `sounds/` in which `boom` is preloaded and nothing plays. -/
def boomPreloaded : State := ⟨"sounds/", AList.singleton "boom" ⟨1⟩, []⟩

/-- The state reached from the initial one by `set_base_path("sounds")`, a `preload("boom")`
that finds `sounds/boom.wav`, and then `set_base_path("music")`. -/
def boomPreloadedThenMoved : State :=
  Miniaudio_SetBasePath
    (Miniaudio_Preload (demoEnv ["sounds/boom.wav"])
      (Miniaudio_SetBasePath initialState "sounds") "boom").2
    "music"

/-- A state with base path `sounds/` in which `boom` is preloaded and one copy of it,
next to a one-shot `zap`, is playing. -/
def boomPlaying : State :=
  ⟨"sounds/", AList.singleton "boom" ⟨1⟩, [⟨⟨3⟩, "boom", true⟩, ⟨⟨5⟩, "zap", false⟩]⟩

/-- The value of a C `float`, as far as comparison sees it: not-a-number, one of the two
infinities, or a finite number (the two zeros compare equal and are the one value
`finite 0`). The finite values of the format are among the rationals. -/
inductive CFloat where
  | nan
  | negInf
  | finite (q : ℚ)
  | posInf
deriving DecidableEq

/-- The IEEE 754 comparison `a < b` of two `float` values: false as soon as one of them
is not-a-number. -/
def CFloat.lt : CFloat → CFloat → Bool
  | .nan, _ => false
  | _, .nan => false
  | .negInf, .negInf => false
  | .negInf, _ => true
  | .finite _, .negInf => false
  | .finite a, .finite b => decide (a < b)
  | .finite _, .posInf => true
  | .posInf, _ => false

/-- The IEEE 754 comparison `a <= b` of two `float` values: false as soon as one of them
is not-a-number. -/
def CFloat.le : CFloat → CFloat → Bool
  | .nan, _ => false
  | _, .nan => false
  | .negInf, _ => true
  | .finite _, .negInf => false
  | .finite a, .finite b => decide (a ≤ b)
  | .finite _, .posInf => true
  | .posInf, .posInf => true
  | .posInf, _ => false

/-- The function `std::max(a, b)` of `<algorithm>` on `float`, as the C++ standard
defines it: `(a < b) ? b : a`. -/
def std_max (a b : CFloat) : CFloat :=
  if CFloat.lt a b then b else a

/-- Embeds `Miniaudio_SetMasterVolume`, from the `float volume` that the Lua number was
converted to: the volume is bounded below by `0.0f` with `std::max` and handed to
`ma_engine_set_volume`. The function pushes nothing and touches none of the globals;
the result here is the value handed to the engine. -/
def Miniaudio_SetMasterVolume (volume : CFloat) : CFloat :=
  let volume := std_max (CFloat.finite 0) volume
  volume

/-! ## Shared lemmas -/

theorem path_with_extension_ne_empty (a b ext : String) (h : ext ≠ "") :
    a ++ b ++ ext ≠ "" := by
  intro hc
  have := congrArg String.data hc
  simp at this
  exact h (String.ext this.2.2)

theorem FindSoundFile_eq_empty_iff (env : Env) (s : State) (n : String) :
    FindSoundFile env s n = "" ↔
      env.fopen (s.g_basePath ++ n ++ ".wav") = false ∧
      env.fopen (s.g_basePath ++ n ++ ".mp3") = false := by
  unfold FindSoundFile
  by_cases h1 : env.fopen (s.g_basePath ++ n ++ ".wav") = true
  · simp [h1, path_with_extension_ne_empty]
  · by_cases h2 : env.fopen (s.g_basePath ++ n ++ ".mp3") = true
    · simp [h1, h2, path_with_extension_ne_empty]
    · simp [h1, h2]

theorem Miniaudio_Play_start_cases (env : Env) (s : State) (p : PlayingSound)
    (looping : Bool) (volume pitch : Float) :
    Miniaudio_Play_start env s p looping volume pitch = (false, s) ∨
    ∃ sound, Miniaudio_Play_start env s p looping volume pitch =
      (true, { s with g_playingSounds :=
        s.g_playingSounds ++ [⟨sound, p.name, p.preloaded_instance⟩] }) := by
  unfold Miniaudio_Play_start
  dsimp only
  cases env.ma_sound_start (env.ma_sound_set_pitch
    (env.ma_sound_set_volume (env.ma_sound_set_looping p.sound looping) volume) pitch) with
  | none => exact Or.inl rfl
  | some sound => exact Or.inr ⟨sound, rfl⟩

theorem take_eraseIdx_self {α : Type} (l : List α) (i : Nat) (hi : i < l.length) :
    (l.eraseIdx i).take i = l.take i := by
  rw [List.eraseIdx_eq_take_drop_succ, List.take_append_of_le_length (by simp; omega)]
  simp [List.take_take]

theorem drop_eraseIdx_self {α : Type} (l : List α) (i : Nat) (hi : i < l.length) :
    (l.eraseIdx i).drop i = l.drop (i + 1) := by
  rw [List.eraseIdx_eq_take_drop_succ, List.drop_append_of_le_length (by simp; omega)]
  simp [List.drop_take]

theorem take_succ_eq_append_getElem {α : Type} (l : List α) (i : Nat) (hi : i < l.length) :
    l.take (i + 1) = l.take i ++ [l[i]] := by
  rw [List.take_succ, List.getElem?_eq_getElem hi]; rfl

theorem stopLoop_spec (n : String) :
    ∀ (k : Nat) (playing : List PlayingSound) (c : Nat), k ≤ playing.length →
      stopLoop n k playing c =
        some ((playing.take k).filter (fun p => decide (p.name ≠ n)) ++ playing.drop k,
              c + (playing.take k).countP (fun p => decide (p.name = n))) := by
  intro k
  induction k with
  | zero => intro playing c _; simp [stopLoop]
  | succ i ih =>
    intro playing c hk
    have hi : i < playing.length := hk
    have hlen : i ≤ (playing.eraseIdx i).length := by
      rw [List.length_eraseIdx_of_lt hi]; omega
    rw [stopLoop, List.getElem?_eq_getElem hi, take_succ_eq_append_getElem playing i hi,
      List.filter_append, List.countP_append]
    by_cases hn : playing[i].name = n
    · simp only [hn, if_true]
      rw [ih _ _ hlen, take_eraseIdx_self playing i hi, drop_eraseIdx_self playing i hi]
      simp [List.filter_cons, List.countP_cons, hn]
      omega
    · simp only [hn, if_false]
      rw [ih _ _ (Nat.le_of_lt hi)]
      simp [List.filter_cons, List.countP_cons, hn]

theorem updateLoop_spec (env : Env) :
    ∀ (k : Nat) (playing : List PlayingSound), k ≤ playing.length →
      updateLoop env k playing =
        some ((playing.take k).filter
                (fun p => !(env.ma_sound_at_end p.sound && !env.ma_sound_is_looping p.sound))
              ++ playing.drop k) := by
  intro k
  induction k with
  | zero => intro playing _; simp [updateLoop]
  | succ i ih =>
    intro playing hk
    have hi : i < playing.length := hk
    have hlen : i ≤ (playing.eraseIdx i).length := by
      rw [List.length_eraseIdx_of_lt hi]; omega
    rw [updateLoop, List.getElem?_eq_getElem hi, take_succ_eq_append_getElem playing i hi,
      List.filter_append]
    dsimp only
    by_cases hn : (env.ma_sound_at_end playing[i].sound &&
        !env.ma_sound_is_looping playing[i].sound) = true
    · have hf : List.filter
          (fun p => !(env.ma_sound_at_end p.sound && !env.ma_sound_is_looping p.sound))
          [playing[i]] = [] := by
        simp only [List.filter_cons, hn]; rfl
      rw [if_pos hn, ih _ hlen, take_eraseIdx_self playing i hi,
        drop_eraseIdx_self playing i hi, hf, List.append_nil]
    · have hf : List.filter
          (fun p => !(env.ma_sound_at_end p.sound && !env.ma_sound_is_looping p.sound))
          [playing[i]] = [playing[i]] := by
        rw [Bool.not_eq_true] at hn
        simp only [List.filter_cons, hn]; rfl
      rw [if_neg hn, ih _ (Nat.le_of_lt hi), hf, List.append_assoc, List.singleton_append,
        ← List.drop_eq_getElem_cons hi]


/-! ## C1: play of a name without a matching file -/

/-- C1, as stated, fails: `boom` was preloaded from `sounds/boom.wav` and the base path
then set to `music`; neither `music/boom.wav` nor `music/boom.mp3` exists, and still
`play("boom")` returns true and registers a new instance, copied from the preloaded
asset. -/
theorem C1_counterexample_preloaded_plays_without_file :
    boomPreloadedThenMoved.g_basePath = "music/" ∧
    boomPreloadedThenMoved.g_playingSounds = [] ∧
    (demoEnv ["sounds/boom.wav"]).fopen
      (boomPreloadedThenMoved.g_basePath ++ "boom" ++ ".wav") = false ∧
    (demoEnv ["sounds/boom.wav"]).fopen
      (boomPreloadedThenMoved.g_basePath ++ "boom" ++ ".mp3") = false ∧
    (Miniaudio_Play (demoEnv ["sounds/boom.wav"]) boomPreloadedThenMoved
      "boom" false 1.0 1.0).1 = true ∧
    (Miniaudio_Play (demoEnv ["sounds/boom.wav"]) boomPreloadedThenMoved
      "boom" false 1.0 1.0).2.g_playingSounds = [⟨⟨3⟩, "boom", true⟩] := by
  decide

/-- C1, amended: for every state in which `n` is not preloaded and every `n` that has no
matching file (neither `<basePath>n.wav` nor `<basePath>n.mp3` opens), `play(n)` returns
false and leaves the state, and with it the registry of playing instances, unchanged. -/
theorem C1_play_without_file_not_preloaded (env : Env) (s : State) (n : String)
    (looping : Bool) (volume pitch : Float)
    (hpre : n ∉ s.g_preloadedSounds)
    (hwav : env.fopen (s.g_basePath ++ n ++ ".wav") = false)
    (hmp3 : env.fopen (s.g_basePath ++ n ++ ".mp3") = false) :
    (Miniaudio_Play env s n looping volume pitch).1 = false ∧
    (Miniaudio_Play env s n looping volume pitch).2 = s ∧
    (Miniaudio_Play env s n looping volume pitch).2.g_playingSounds.length
      = s.g_playingSounds.length := by
  have hlook : s.g_preloadedSounds.lookup n = none := AList.lookup_eq_none.mpr hpre
  have hfind : FindSoundFile env s n = "" :=
    (FindSoundFile_eq_empty_iff env s n).mpr ⟨hwav, hmp3⟩
  have hplay : Miniaudio_Play env s n looping volume pitch = (false, s) := by
    unfold Miniaudio_Play
    rw [hlook]
    simp only [hfind, if_true]
  rw [hplay]
  exact ⟨rfl, rfl, rfl⟩

/-- C1 witness: from the initial state, with only `boom.wav` on disk, `play("zap")` has
no matching file and is refused. -/
theorem C1_play_without_file_witness :
    (Miniaudio_Play (demoEnv ["boom.wav"]) initialState "zap" true 0.5 2.0).1 = false ∧
    (Miniaudio_Play (demoEnv ["boom.wav"]) initialState "zap" true 0.5 2.0).2 = initialState ∧
    (Miniaudio_Play (demoEnv ["boom.wav"]) initialState "zap" true 0.5 2.0).2.g_playingSounds.length
      = initialState.g_playingSounds.length :=
  C1_play_without_file_not_preloaded (demoEnv ["boom.wav"]) initialState "zap" true 0.5 2.0
    (by decide) (by decide) (by decide)

/-! ## C2: play is all-or-nothing -/

/-- C2: every `play(name, looping, volume, pitch)` either returns true and leaves the
prior registry with exactly one new instance appended at its end, named `name` and marked
as coming from a preloaded asset exactly when `name` is in the asset store, or returns
false and leaves the whole state as it was; the asset store is unchanged either way. -/
theorem C2_play_all_or_nothing (env : Env) (s : State) (n : String)
    (looping : Bool) (volume pitch : Float) :
    (Miniaudio_Play env s n looping volume pitch).2.g_preloadedSounds = s.g_preloadedSounds ∧
    (((Miniaudio_Play env s n looping volume pitch).1 = true ∧
        ∃ sound, (Miniaudio_Play env s n looping volume pitch).2.g_playingSounds =
          s.g_playingSounds ++ [⟨sound, n, decide (n ∈ s.g_preloadedSounds)⟩]) ∨
     ((Miniaudio_Play env s n looping volume pitch).1 = false ∧
        (Miniaudio_Play env s n looping volume pitch).2 = s)) := by
  unfold Miniaudio_Play
  cases hlook : s.g_preloadedSounds.lookup n with
  | some preloaded =>
    have hmem : n ∈ s.g_preloadedSounds := by
      rw [← AList.lookup_isSome, hlook]; rfl
    dsimp only
    cases env.ma_sound_init_copy preloaded with
    | none => exact ⟨rfl, Or.inr ⟨rfl, rfl⟩⟩
    | some sound =>
      dsimp only
      rcases Miniaudio_Play_start_cases env s ⟨sound, n, true⟩ looping volume pitch with h | ⟨snd, h⟩
      · rw [h]; exact ⟨rfl, Or.inr ⟨rfl, rfl⟩⟩
      · rw [h]; exact ⟨rfl, Or.inl ⟨rfl, snd, by simp [hmem]⟩⟩
  | none =>
    have hmem : n ∉ s.g_preloadedSounds := AList.lookup_eq_none.mp hlook
    dsimp only
    by_cases h1 : FindSoundFile env s n = ""
    · rw [if_pos h1]; exact ⟨rfl, Or.inr ⟨rfl, rfl⟩⟩
    · rw [if_neg h1]
      by_cases h2 : env.fopen_recheck (FindSoundFile env s n) = false
      · rw [if_pos h2]; exact ⟨rfl, Or.inr ⟨rfl, rfl⟩⟩
      · rw [if_neg h2]
        cases env.ma_sound_init_from_file (FindSoundFile env s n) with
        | none => exact ⟨rfl, Or.inr ⟨rfl, rfl⟩⟩
        | some sound =>
          dsimp only
          rcases Miniaudio_Play_start_cases env s ⟨sound, n, false⟩ looping volume pitch
            with h | ⟨snd, h⟩
          · rw [h]; exact ⟨rfl, Or.inr ⟨rfl, rfl⟩⟩
          · rw [h]; exact ⟨rfl, Or.inl ⟨rfl, snd, by simp [hmem]⟩⟩

/-! ## C3: stop by name -/

theorem Miniaudio_Stop_eq (s : State) (n : String) :
    Miniaudio_Stop s n =
      some (s.g_playingSounds.countP (fun p => decide (p.name = n)),
        { s with g_playingSounds := s.g_playingSounds.filter (fun p => decide (p.name ≠ n)) }) := by
  unfold Miniaudio_Stop
  rw [stopLoop_spec n _ _ 0 (Nat.le_refl _)]
  simp

/-- C3: `stop(n)` returns exactly the number of instances named `n` in the prior
registry and leaves the prior registry with every instance named `n` removed, all others
kept in their order; a `stop(n)` right after it returns 0 and changes nothing. -/
theorem C3_stop_removes_every_instance_of_name (s : State) (n : String) :
    Miniaudio_Stop s n =
      some (s.g_playingSounds.countP (fun p => decide (p.name = n)),
        { s with g_playingSounds := s.g_playingSounds.filter (fun p => decide (p.name ≠ n)) }) ∧
    Miniaudio_Stop
        { s with g_playingSounds := s.g_playingSounds.filter (fun p => decide (p.name ≠ n)) } n =
      some (0,
        { s with g_playingSounds := s.g_playingSounds.filter (fun p => decide (p.name ≠ n)) }) := by
  refine ⟨Miniaudio_Stop_eq s n, ?_⟩
  rw [Miniaudio_Stop_eq]
  have hc : (s.g_playingSounds.filter (fun p => decide (p.name ≠ n))).countP
      (fun p => decide (p.name = n)) = 0 := by
    rw [List.countP_eq_zero]
    intro p hp
    simpa using (List.mem_filter.mp hp).2
  have hf : (s.g_playingSounds.filter (fun p => decide (p.name ≠ n))).filter
      (fun p => decide (p.name ≠ n)) = s.g_playingSounds.filter (fun p => decide (p.name ≠ n)) := by
    rw [List.filter_filter]; simp
  simp only [hc, hf]

/-! ## C4: the per-frame sweep -/

theorem UpdateMiniaudio_eq (env : Env) (s : State) :
    UpdateMiniaudio env s =
      some { s with
        g_playingSounds := s.g_playingSounds.filter
          (fun p => !(env.ma_sound_at_end p.sound && !env.ma_sound_is_looping p.sound)) } := by
  unfold UpdateMiniaudio
  rw [updateLoop_spec env _ _ (Nat.le_refl _)]
  simp

theorem runFrames_keeps_looping (p : PlayingSound) :
    ∀ (envs : List Env) (s : State), p ∈ s.g_playingSounds →
      (∀ e ∈ envs, e.ma_sound_is_looping p.sound = true) →
      ∃ s₁, runFrames envs s = some s₁ ∧ p ∈ s₁.g_playingSounds := by
  intro envs
  induction envs with
  | nil => intro s hp _; exact ⟨s, rfl, hp⟩
  | cons e rest ih =>
    intro s hp hloop
    rw [runFrames, UpdateMiniaudio_eq]
    apply ih
    · have he : e.ma_sound_is_looping p.sound = true := hloop e (List.mem_cons_self _ _)
      exact List.mem_filter.mpr ⟨hp, by simp [he]⟩
    · intro e₁ he₁
      exact hloop e₁ (List.mem_cons_of_mem _ he₁)

/-- C4: one sweep leaves the prior registry with exactly the instances removed that the
engine reports as at their end and not looping, the others kept in their order; and an
instance that the engine reports as looping in every frame is still registered after any
number of sweeps. -/
theorem C4_sweep_removes_finished_non_looping (env : Env) (s : State) :
    UpdateMiniaudio env s =
      some { s with
        g_playingSounds := s.g_playingSounds.filter
          (fun p => !(env.ma_sound_at_end p.sound && !env.ma_sound_is_looping p.sound)) } ∧
    ∀ (envs : List Env) (p : PlayingSound), p ∈ s.g_playingSounds →
      (∀ e ∈ envs, e.ma_sound_is_looping p.sound = true) →
      ∃ s₁, runFrames envs s = some s₁ ∧ p ∈ s₁.g_playingSounds :=
  ⟨UpdateMiniaudio_eq env s, fun envs p hp hloop => runFrames_keeps_looping p envs s hp hloop⟩

/-- C4 witness: of a finished one-shot instance (contents 5) and a looping instance that
is at its end (contents 11), one sweep removes the first and keeps the second, which is
still registered after three sweeps. -/
theorem C4_sweep_witness :
    UpdateMiniaudio (demoEnv [])
        ⟨"", ∅, [⟨⟨5⟩, "shot", false⟩, ⟨⟨11⟩, "music", false⟩]⟩ =
      some ⟨"", ∅, [⟨⟨11⟩, "music", false⟩]⟩ ∧
    ∃ s₁, runFrames [demoEnv [], demoEnv [], demoEnv []]
        ⟨"", ∅, [⟨⟨5⟩, "shot", false⟩, ⟨⟨11⟩, "music", false⟩]⟩ = some s₁ ∧
      (⟨⟨11⟩, "music", false⟩ : PlayingSound) ∈ s₁.g_playingSounds :=
  ⟨(C4_sweep_removes_finished_non_looping (demoEnv [])
      ⟨"", ∅, [⟨⟨5⟩, "shot", false⟩, ⟨⟨11⟩, "music", false⟩]⟩).1,
   (C4_sweep_removes_finished_non_looping (demoEnv [])
      ⟨"", ∅, [⟨⟨5⟩, "shot", false⟩, ⟨⟨11⟩, "music", false⟩]⟩).2
    [demoEnv [], demoEnv [], demoEnv []] ⟨⟨11⟩, "music", false⟩ (by decide) (by decide)⟩

/-! ## Asset store lemmas -/

theorem kerase_eq_filter (n : String) :
    ∀ (l : List (Sigma fun _ : String => ma_sound)), l.NodupKeys →
      l.kerase n = l.filter (fun e => decide (e.1 ≠ n)) := by
  intro l
  induction l with
  | nil => intro _; rfl
  | cons hd tl ih =>
    intro hnd
    rw [List.nodupKeys_cons] at hnd
    by_cases h : n = hd.1
    · have htl : tl.filter (fun e => decide (e.1 ≠ n)) = tl := by
        rw [List.filter_eq_self]
        intro e he
        have : e.1 ≠ n := by
          intro hc
          exact hnd.1 (by rw [← h, ← hc]; exact List.mem_keys_of_mem he)
        simpa using this
      rw [List.kerase_cons_eq h, List.filter_cons_of_neg (by simp [h]), htl]
    · rw [List.kerase_cons_ne h, ih hnd.2, List.filter_cons_of_pos (by simpa using Ne.symm h)]

theorem erase_insert_of_not_mem (st : AList (fun _ : String => ma_sound)) (n : String)
    (d : ma_sound) (h : n ∉ st) : (st.insert n d).erase n = st := by
  apply AList.ext
  show List.kerase n (st.insert n d).entries = st.entries
  rw [AList.insert_entries_of_neg h]
  exact List.kerase_cons_eq rfl

theorem replace_insert_entries_of_not_mem (st : AList (fun _ : String => ma_sound))
    (n : String) (d sound : ma_sound) (h : n ∉ st) :
    ((st.insert n d).replace n sound).entries = ⟨n, sound⟩ :: st.entries := by
  show List.kreplace n sound (st.insert n d).entries = _
  rw [AList.insert_entries_of_neg h]
  simp [List.kreplace, List.lookmap_cons_some]

theorem Miniaudio_Preload_fresh_cases (env : Env) (s : State) (n : String)
    (h : n ∉ s.g_preloadedSounds) :
    (Miniaudio_Preload env s n = (false, s) ∧
      (FindSoundFile env s n = "" ∨ env.fopen_recheck (FindSoundFile env s n) = false ∨
        env.ma_sound_init_ex (FindSoundFile env s n) = none)) ∨
    ∃ sound st, Miniaudio_Preload env s n = (true, { s with g_preloadedSounds := st }) ∧
      st.entries = ⟨n, sound⟩ :: s.g_preloadedSounds.entries ∧
      FindSoundFile env s n ≠ "" ∧ env.fopen_recheck (FindSoundFile env s n) = true ∧
      env.ma_sound_init_ex (FindSoundFile env s n) = some sound := by
  unfold Miniaudio_Preload
  rw [if_neg h]
  dsimp only
  by_cases h1 : FindSoundFile env s n = ""
  · rw [if_pos h1]; exact Or.inl ⟨rfl, Or.inl h1⟩
  · rw [if_neg h1]
    by_cases h2 : env.fopen_recheck (FindSoundFile env s n) = false
    · rw [if_pos h2]; exact Or.inl ⟨rfl, Or.inr (Or.inl h2)⟩
    · rw [if_neg h2]
      cases h3 : env.ma_sound_init_ex (FindSoundFile env s n) with
      | none =>
        dsimp only
        rw [erase_insert_of_not_mem _ _ _ h]
        exact Or.inl ⟨rfl, Or.inr (Or.inr rfl)⟩
      | some sound =>
        exact Or.inr ⟨sound, _, rfl, replace_insert_entries_of_not_mem _ _ _ _ h, h1,
          by simpa using h2, rfl⟩

theorem Miniaudio_Preload_mem_of_true (env : Env) (s : State) (n : String)
    (h : (Miniaudio_Preload env s n).1 = true) :
    n ∈ (Miniaudio_Preload env s n).2.g_preloadedSounds := by
  by_cases hmem : n ∈ s.g_preloadedSounds
  · have : Miniaudio_Preload env s n = (true, s) := by
      unfold Miniaudio_Preload; rw [if_pos hmem]
    rw [this]; exact hmem
  · rcases Miniaudio_Preload_fresh_cases env s n hmem with ⟨hf, _⟩ | ⟨sound, st, hs, hent, _⟩
    · rw [hf] at h; exact Bool.noConfusion h
    · rw [hs]
      show n ∈ st
      rw [AList.mem_keys, AList.keys, hent]
      simp [List.keys]

/-! ## C5: preload is idempotent -/

/-- C5: after a `preload(n)` that returned true, a `preload(n)` right after it also
returns true and leaves the state, and with it the asset store, as it was, whatever the
files and the engine would answer (nothing is reloaded); the store holds exactly one
entry for `n`. -/
theorem C5_preload_twice_is_idempotent (env₁ env₂ : Env) (s : State) (n : String)
    (h : (Miniaudio_Preload env₁ s n).1 = true) :
    Miniaudio_Preload env₂ (Miniaudio_Preload env₁ s n).2 n
      = (true, (Miniaudio_Preload env₁ s n).2) ∧
    (Miniaudio_Preload env₁ s n).2.g_preloadedSounds.keys.count n = 1 := by
  have hmem := Miniaudio_Preload_mem_of_true env₁ s n h
  refine ⟨?_, ?_⟩
  · unfold Miniaudio_Preload at hmem ⊢
    rw [if_pos hmem]
  · exact List.count_eq_one_of_mem (AList.keys_nodup _) (AList.mem_keys.mp hmem)

/-- C5 witness: `boom` is preloaded from `boom.mp3`; the second preload, with no file on
disk any more, still returns true and keeps the one entry. -/
theorem C5_preload_twice_witness :
    Miniaudio_Preload (demoEnv []) (Miniaudio_Preload (demoEnv ["boom.mp3"]) initialState "boom").2 "boom"
      = (true, (Miniaudio_Preload (demoEnv ["boom.mp3"]) initialState "boom").2) ∧
    (Miniaudio_Preload (demoEnv ["boom.mp3"]) initialState "boom").2.g_preloadedSounds.keys.count "boom"
      = 1 :=
  C5_preload_twice_is_idempotent (demoEnv ["boom.mp3"]) (demoEnv []) initialState "boom"
    (by decide)

/-! ## C6: stop all -/

/-- C6: `stop_all()` returns exactly the number of instances registered before the call
and leaves the registry empty. -/
theorem C6_stop_all_returns_prior_size (s : State) :
    (Miniaudio_StopAll s).1 = s.g_playingSounds.length ∧
    (Miniaudio_StopAll s).2.g_playingSounds = [] :=
  ⟨rfl, rfl⟩

/-! ## C7: unload -/

/-- C7: `unload(n)` returns true exactly when `n` was in the asset store; when true the
store loses the entry for `n` and no other entry, when false the state is unchanged; the
registry of playing instances is unchanged either way, so `is_playing` answers the same
before and after, for `n` as for every other name. -/
theorem C7_unload_frame (env : Env) (s : State) (n : String) :
    ((Miniaudio_Unload s n).1 = true ↔ n ∈ s.g_preloadedSounds) ∧
    ((Miniaudio_Unload s n).1 = true →
      (Miniaudio_Unload s n).2.g_preloadedSounds.entries =
        s.g_preloadedSounds.entries.filter (fun e => decide (e.1 ≠ n))) ∧
    ((Miniaudio_Unload s n).1 = false → (Miniaudio_Unload s n).2 = s) ∧
    (Miniaudio_Unload s n).2.g_playingSounds = s.g_playingSounds ∧
    ∀ m, Miniaudio_IsPlaying env (Miniaudio_Unload s n).2 m = Miniaudio_IsPlaying env s m := by
  unfold Miniaudio_Unload
  cases hlook : s.g_preloadedSounds.lookup n with
  | some sound =>
    have hmem : n ∈ s.g_preloadedSounds := by
      rw [← AList.lookup_isSome, hlook]; rfl
    refine ⟨⟨fun _ => hmem, fun _ => rfl⟩, fun _ => ?_, fun h => Bool.noConfusion h, rfl,
      fun _ => rfl⟩
    exact kerase_eq_filter n _ s.g_preloadedSounds.nodupKeys
  | none =>
    have hmem : n ∉ s.g_preloadedSounds := AList.lookup_eq_none.mp hlook
    exact ⟨⟨fun h => Bool.noConfusion h, fun h => absurd h hmem⟩, fun h => Bool.noConfusion h,
      fun _ => rfl, rfl, fun _ => rfl⟩

/-- C7 witness: unloading `boom` while a copy of it plays empties the store and keeps
the copy registered and playing. -/
theorem C7_unload_witness :
    (Miniaudio_Unload boomPlaying "boom").2.g_preloadedSounds.entries =
      boomPlaying.g_preloadedSounds.entries.filter (fun e => decide (e.1 ≠ "boom")) :=
  (C7_unload_frame (demoEnv []) boomPlaying "boom").2.1 (by decide)

/-! ## C8: preload of a name that is not yet in the store -/

/-- C8: for a name `n` that is not in the asset store, a `preload(n)` without a matching
file, and one whose decode the engine rejects, return false; every `preload(n)` that
returns false leaves the state, and with it the store, exactly as it was, with no entry
for `n`; and every `preload(n)` that returns true leaves the prior store plus exactly one
new entry, keyed `n`, holding the sound the engine decoded. -/
theorem C8_preload_fresh_name (env : Env) (s : State) (n : String)
    (hfresh : n ∉ s.g_preloadedSounds) :
    (env.fopen (s.g_basePath ++ n ++ ".wav") = false →
      env.fopen (s.g_basePath ++ n ++ ".mp3") = false →
      (Miniaudio_Preload env s n).1 = false) ∧
    (env.ma_sound_init_ex (FindSoundFile env s n) = none →
      (Miniaudio_Preload env s n).1 = false) ∧
    ((Miniaudio_Preload env s n).1 = false →
      (Miniaudio_Preload env s n).2 = s ∧
      n ∉ (Miniaudio_Preload env s n).2.g_preloadedSounds) ∧
    ((Miniaudio_Preload env s n).1 = true →
      ∃ sound, env.ma_sound_init_ex (FindSoundFile env s n) = some sound ∧
        (Miniaudio_Preload env s n).2.g_preloadedSounds.entries =
          ⟨n, sound⟩ :: s.g_preloadedSounds.entries ∧
        (Miniaudio_Preload env s n).2.g_playingSounds = s.g_playingSounds ∧
        (Miniaudio_Preload env s n).2.g_basePath = s.g_basePath) := by
  rcases Miniaudio_Preload_fresh_cases env s n hfresh with
    ⟨hf, _⟩ | ⟨sound, st, hs, hent, hfound, _, hinit⟩
  · rw [hf]
    exact ⟨fun _ _ => rfl, fun _ => rfl, fun _ => ⟨rfl, hfresh⟩, fun h => Bool.noConfusion h⟩
  · rw [hs]
    refine ⟨fun hwav hmp3 => ?_, fun hnone => ?_, fun h => Bool.noConfusion h,
      fun _ => ⟨sound, hinit, hent, rfl, rfl⟩⟩
    · exact absurd ((FindSoundFile_eq_empty_iff env s n).mpr ⟨hwav, hmp3⟩) hfound
    · rw [hinit] at hnone; exact Option.noConfusion hnone

/-- C8 witness: from the initial state, with only `boom.mp3` on disk, `preload("zap")`
finds no file, fails and leaves the state as it was, while `preload("boom")` succeeds
and leaves a store of exactly one entry, keyed `boom`. -/
theorem C8_preload_fresh_witness :
    ((Miniaudio_Preload (demoEnv ["boom.mp3"]) initialState "zap").1 = false ∧
      (Miniaudio_Preload (demoEnv ["boom.mp3"]) initialState "zap").2 = initialState ∧
      "zap" ∉ (Miniaudio_Preload (demoEnv ["boom.mp3"]) initialState "zap").2.g_preloadedSounds) ∧
    ∃ sound, (demoEnv ["boom.mp3"]).ma_sound_init_ex
        (FindSoundFile (demoEnv ["boom.mp3"]) initialState "boom") = some sound ∧
      (Miniaudio_Preload (demoEnv ["boom.mp3"]) initialState "boom").2.g_preloadedSounds.entries =
        ⟨"boom", sound⟩ :: initialState.g_preloadedSounds.entries ∧
      (Miniaudio_Preload (demoEnv ["boom.mp3"]) initialState "boom").2.g_playingSounds =
        initialState.g_playingSounds ∧
      (Miniaudio_Preload (demoEnv ["boom.mp3"]) initialState "boom").2.g_basePath =
        initialState.g_basePath :=
  have hzap := C8_preload_fresh_name (demoEnv ["boom.mp3"]) initialState "zap" (by decide)
  have hboom := C8_preload_fresh_name (demoEnv ["boom.mp3"]) initialState "boom" (by decide)
  ⟨⟨hzap.1 (by decide) (by decide), hzap.2.2.1 (hzap.1 (by decide) (by decide))⟩,
    hboom.2.2.2 (by decide)⟩

/-! ## C9: the base path -/

theorem back_append_slash (p : String) : back (p ++ "/") = some '/' := by
  simp [back]

/-- C9, as stated, fails: after `set_base_path("")` the stored base path is the empty
string, which ends with no separator. -/
theorem C9_counterexample_empty_path :
    (Miniaudio_SetBasePath initialState "").g_basePath = "" ∧
    ¬ EndsWithSeparator (Miniaudio_SetBasePath initialState "").g_basePath := by
  decide

/-- C9, amended: for every non-empty path string, after `set_base_path(path)` the stored
base path ends with a path separator, `/` or `\`. -/
theorem C9_set_base_path_nonempty (s : State) (path : String) (h : path ≠ "") :
    EndsWithSeparator (Miniaudio_SetBasePath s path).g_basePath := by
  unfold Miniaudio_SetBasePath
  dsimp only
  by_cases hc : path ≠ "" ∧ back path ≠ some '/' ∧ back path ≠ some '\\'
  · rw [if_pos hc]
    exact Or.inl (back_append_slash path)
  · rw [if_neg hc]
    show back path = some '/' ∨ back path = some '\\'
    by_cases h1 : back path = some '/'
    · exact Or.inl h1
    · by_cases h2 : back path = some '\\'
      · exact Or.inr h2
      · exact absurd ⟨h, h1, h2⟩ hc

/-- C9 witness: `sounds` is stored as `sounds/`. -/
theorem C9_set_base_path_witness :
    EndsWithSeparator (Miniaudio_SetBasePath initialState "sounds").g_basePath :=
  C9_set_base_path_nonempty initialState "sounds" (by decide)

/-! ## C10: file resolution -/

/-- C10: `FindSoundFile` returns `<basePath><name>.wav` whenever that file opens, also
when the `.mp3` opens too; returns `<basePath><name>.mp3` when only the `.mp3` opens; and
returns the empty string (not found) exactly when neither opens. -/
theorem C10_FindSoundFile_wav_then_mp3 (env : Env) (s : State) (n : String) :
    (env.fopen (s.g_basePath ++ n ++ ".wav") = true →
      FindSoundFile env s n = s.g_basePath ++ n ++ ".wav") ∧
    (env.fopen (s.g_basePath ++ n ++ ".wav") = false →
      env.fopen (s.g_basePath ++ n ++ ".mp3") = true →
      FindSoundFile env s n = s.g_basePath ++ n ++ ".mp3") ∧
    (FindSoundFile env s n = "" ↔
      env.fopen (s.g_basePath ++ n ++ ".wav") = false ∧
      env.fopen (s.g_basePath ++ n ++ ".mp3") = false) := by
  refine ⟨fun h1 => ?_, fun h1 h2 => ?_, FindSoundFile_eq_empty_iff env s n⟩
  · unfold FindSoundFile; simp only [h1, if_true]
  · unfold FindSoundFile; simp [h1, h2]

/-- C10 witness: with both `sounds/boom.wav` and `sounds/boom.mp3` on disk the `.wav`
wins. -/
theorem C10_FindSoundFile_witness :
    FindSoundFile (demoEnv ["sounds/boom.mp3", "sounds/boom.wav"]) boomPreloaded "boom"
      = "sounds/" ++ "boom" ++ ".wav" :=
  (C10_FindSoundFile_wav_then_mp3 (demoEnv ["sounds/boom.mp3", "sounds/boom.wav"])
    boomPreloaded "boom").1 (by decide)

/-! ## C11: the master volume -/

/-- C11: `set_master_volume(v)` forwards `max(0, v)` to the engine: a negative `v` is
forwarded as 0, so that -5 is forwarded as the same value as 0; a non-negative `v`,
however large and the positive infinity included, is forwarded unchanged; and for every
`v` that is a number the forwarded value is the greater of 0 and `v`. -/
theorem C11_set_master_volume_forwards_max_zero (v : CFloat) :
    (CFloat.lt v (CFloat.finite 0) = true →
      Miniaudio_SetMasterVolume v = CFloat.finite 0) ∧
    (CFloat.le (CFloat.finite 0) v = true → Miniaudio_SetMasterVolume v = v) ∧
    Miniaudio_SetMasterVolume (CFloat.finite (-5)) =
      Miniaudio_SetMasterVolume (CFloat.finite 0) ∧
    Miniaudio_SetMasterVolume CFloat.posInf = CFloat.posInf ∧
    (v ≠ CFloat.nan →
      CFloat.le (CFloat.finite 0) (Miniaudio_SetMasterVolume v) = true ∧
      CFloat.le v (Miniaudio_SetMasterVolume v) = true ∧
      (Miniaudio_SetMasterVolume v = CFloat.finite 0 ∨ Miniaudio_SetMasterVolume v = v)) := by
  have h5 : Miniaudio_SetMasterVolume (CFloat.finite (-5)) = CFloat.finite 0 := by
    simp [Miniaudio_SetMasterVolume, std_max, CFloat.lt]
  have h0 : Miniaudio_SetMasterVolume (CFloat.finite 0) = CFloat.finite 0 := by
    simp [Miniaudio_SetMasterVolume, std_max, CFloat.lt]
  refine ⟨?_, ?_, h5.trans h0.symm, rfl, ?_⟩
  · intro h
    cases v with
    | nan => rfl
    | negInf => rfl
    | posInf => exact Bool.noConfusion h
    | finite q =>
      have hq : q < 0 := by simpa [CFloat.lt] using h
      simp [Miniaudio_SetMasterVolume, std_max, CFloat.lt, not_lt.mpr hq.le]
  · intro h
    cases v with
    | nan => exact Bool.noConfusion h
    | negInf => exact Bool.noConfusion h
    | posInf => rfl
    | finite q =>
      have hq : 0 ≤ q := by simpa [CFloat.le] using h
      by_cases hz : 0 < q
      · simp [Miniaudio_SetMasterVolume, std_max, CFloat.lt, hz]
      · have : q = 0 := le_antisymm (not_lt.mp hz) hq
        simp [Miniaudio_SetMasterVolume, std_max, CFloat.lt, this]
  · intro hv
    cases v with
    | nan => exact absurd rfl hv
    | negInf => simp [Miniaudio_SetMasterVolume, std_max, CFloat.lt, CFloat.le]
    | posInf => simp [Miniaudio_SetMasterVolume, std_max, CFloat.lt, CFloat.le]
    | finite q =>
      by_cases hz : 0 < q
      · simp [Miniaudio_SetMasterVolume, std_max, CFloat.lt, CFloat.le, hz, hz.le]
      · simp [Miniaudio_SetMasterVolume, std_max, CFloat.lt, CFloat.le, hz, not_lt.mp hz]

/-- C11 witness: -5 is forwarded as 0 and 3, an amplification, is forwarded as 3. -/
theorem C11_set_master_volume_witness :
    Miniaudio_SetMasterVolume (CFloat.finite (-5)) = CFloat.finite 0 ∧
    Miniaudio_SetMasterVolume (CFloat.finite 3) = CFloat.finite 3 :=
  ⟨(C11_set_master_volume_forwards_max_zero (CFloat.finite (-5))).1 (by decide),
   (C11_set_master_volume_forwards_max_zero (CFloat.finite 3)).2.1 (by decide)⟩

end Miniaudio
